import Mathlib

/-!
Verification development for the fastapi-oxyde-example blog API.

The repository's route handlers (src/routes/*.py) are embedded as pure
state transformers over an explicit database value; the declarative data
model (src/models.py) and the four migration units (src/migrations/*.py)
are embedded as Lean data.  Behaviour that lives in the external oxyde
ORM (cascade deletion, the atomic transaction wrapper, the integrity
checks performed at insert time, the migration resolver and the schema
registry) is modelled from the specification, as flagged on each such
definition.
-/

namespace Blog

/-- A row of the `users` table (src/models.py, class User).
`created_at` timestamps are modelled as naturals. -/
structure UserRow where
  id : Nat
  username : String
  email : String
  createdAt : Nat
deriving Repr, DecidableEq

/-- A row of the `tags` table (src/models.py, class Tag). -/
structure TagRow where
  id : Nat
  name : String
  slug : String
deriving Repr, DecidableEq

/-- A row of the `posts` table (src/models.py, class Post).  The
`author_id` foreign-key column is nullable in the schema, hence
`Option Nat`. -/
structure PostRow where
  id : Nat
  title : String
  content : String
  published : Bool
  createdAt : Nat
  updatedAt : Nat
  authorId : Option Nat
deriving Repr, DecidableEq

/-- A row of the `comments` table (src/models.py, class Comment). -/
structure CommentRow where
  id : Nat
  content : String
  createdAt : Nat
  postId : Option Nat
  authorId : Option Nat
deriving Repr, DecidableEq

/-- A row of the `post_tags` junction table (src/models.py, class PostTag). -/
structure PostTagRow where
  id : Nat
  postId : Option Nat
  tagId : Option Nat
deriving Repr, DecidableEq

/-- The whole relational state: one list of rows per table of the model. -/
structure DB where
  users : List UserRow
  tags : List TagRow
  posts : List PostRow
  comments : List CommentRow
  postTags : List PostTagRow
deriving Repr, DecidableEq

/-- Errors surfaced by the handlers and by the modelled integrity layer.
`http s d` is FastAPI's `HTTPException(status_code=s, detail=d)`;
the other constructors are the spec's integrity-error taxonomy (§7). -/
inductive Err where
  | http : Nat → String → Err
  | foreignKeyViolation : String → Err
  | uniqueConstraintViolation : String → Err
deriving Repr, DecidableEq

/-- `User.objects.filter(id=uid).exists()`. -/
def userExists (db : DB) (uid : Nat) : Bool :=
  db.users.any (fun u => u.id == uid)

/-- `Tag.objects.filter(id=tid).exists()`. -/
def tagExists (db : DB) (tid : Nat) : Bool :=
  db.tags.any (fun t => t.id == tid)

/-- `Post.objects.filter(id=pid).exists()`. -/
def postExists (db : DB) (pid : Nat) : Bool :=
  db.posts.any (fun p => p.id == pid)

/-- Request body of `POST /users` (src/routes/users.py, UserCreate). -/
structure UserCreate where
  username : String
  email : String
deriving Repr, DecidableEq

/-- `POST /users` (src/routes/users.py, create_user): reject if the
username or the email is already taken, otherwise insert a fresh row.
`newId`/`now` stand for the storage engine's generated primary key and
`CURRENT_TIMESTAMP` default. -/
def create_user (db : DB) (data : UserCreate) (newId now : Nat) :
    DB × Except Err UserRow :=
  if db.users.any (fun u => u.username == data.username) then
    (db, .error (.http 400 "Username already taken"))
  else if db.users.any (fun u => u.email == data.email) then
    (db, .error (.http 400 "Email already taken"))
  else
    let row : UserRow :=
      { id := newId, username := data.username, email := data.email, createdAt := now }
    ({ db with users := db.users ++ [row] }, .ok row)

/-- Request body of `PATCH /users/{id}` (src/routes/users.py, UserUpdate):
`none` models a field absent from the payload (pydantic `exclude_unset`). -/
structure UserUpdate where
  username : Option String
  email : Option String
deriving Repr, DecidableEq

/-- `PATCH /users/{user_id}` (src/routes/users.py, update_user): 404 when
the row is absent; otherwise overwrite exactly the provided fields and
save the row back by primary key. -/
def update_user (db : DB) (uid : Nat) (data : UserUpdate) :
    DB × Except Err UserRow :=
  match db.users.find? (fun u => u.id == uid) with
  | none => (db, .error (.http 404 "User not found"))
  | some u =>
    let u' : UserRow :=
      { u with
        username := data.username.getD u.username
        email := data.email.getD u.email }
    ({ db with users := db.users.map (fun v => if v.id == uid then u' else v) },
      .ok u')
/-- Request body of `PATCH /posts/{id}` (src/routes/posts.py, PostUpdate):
`none` models a field absent from the payload (pydantic `exclude_unset`). -/
structure PostUpdate where
  title : Option String
  content : Option String
  published : Option Bool
deriving Repr, DecidableEq

/-- `PATCH /posts/{post_id}` (src/routes/posts.py, update_post): 404 when
the row is absent; otherwise overwrite exactly the provided fields and
save the row back by primary key. -/
def update_post (db : DB) (pid : Nat) (data : PostUpdate) :
    DB × Except Err PostRow :=
  match db.posts.find? (fun p => p.id == pid) with
  | none => (db, .error (.http 404 "Post not found"))
  | some p =>
    let p' : PostRow :=
      { p with
        title := data.title.getD p.title
        content := data.content.getD p.content
        published := data.published.getD p.published }
    ({ db with posts := db.posts.map (fun q => if q.id == pid then p' else q) },
      .ok p')

/-- Modelled from the spec: the storage engine's auto-generated integer
primary key for an insert (one more than the largest id in the table). -/
def freshId (ids : List Nat) : Nat := ids.foldr Nat.max 0 + 1

/-- Modelled from the spec: the Integrity Enforcer's insert path for
`posts` (§4.3 referential existence): the `author_id` foreign key must
reference an existing `users` row at validation time, else the insert
fails with `ForeignKeyViolation`.  `now` stands for the
`CURRENT_TIMESTAMP` defaults of `created_at`/`updated_at`. -/
def insertPost (db : DB) (title content : String) (published : Bool)
    (authorId : Nat) (now : Nat) : Except Err (DB × PostRow) :=
  if userExists db authorId then
    let row : PostRow :=
      { id := freshId (db.posts.map (·.id)), title := title, content := content,
        published := published, createdAt := now, updatedAt := now,
        authorId := some authorId }
    .ok ({ db with posts := db.posts ++ [row] }, row)
  else
    .error (.foreignKeyViolation "posts.author_id")

/-- Modelled from the spec: the Integrity Enforcer's insert path for the
`post_tags` junction table: both foreign keys must reference existing
rows (§4.3 referential existence) and the model's
`unique_together = ("post", "tag")` must not collide (§4.3 uniqueness). -/
def insertPostTag (db : DB) (postId tagId : Nat) : Except Err DB :=
  if !postExists db postId then
    .error (.foreignKeyViolation "post_tags.post_id")
  else if !tagExists db tagId then
    .error (.foreignKeyViolation "post_tags.tag_id")
  else if db.postTags.any
      (fun pt => pt.postId == some postId && pt.tagId == some tagId) then
    .error (.uniqueConstraintViolation "post_tags (post_id, tag_id)")
  else
    .ok { db with postTags := db.postTags ++
      [⟨freshId (db.postTags.map (·.id)), some postId, some tagId⟩] }

/-- The `for tag_id in data.tag_ids` loop of create_post_with_tags
(src/routes/posts.py:135-136): insert one junction row per listed tag,
stopping at the first integrity failure. -/
def insertPostTags (postId : Nat) : DB → List Nat → Except Err DB
  | db, [] => .ok db
  | db, t :: ts =>
    match insertPostTag db postId t with
    | .error e => .error e
    | .ok db' => insertPostTags postId db' ts

/-- Request body of `POST /posts/with-tags`
(src/routes/posts.py, PostCreateWithTags). -/
structure PostCreateWithTags where
  title : String
  content : String
  authorId : Nat
  published : Bool
  tagIds : List Nat
deriving Repr, DecidableEq

/-- `POST /posts/with-tags` (src/routes/posts.py, create_post_with_tags):
pre-checks outside the transaction (author exists; the number of tag rows
whose id is listed equals the number of listed ids), then the post insert
and the junction inserts inside `transaction.atomic()`.  Modelled from
the spec: the Atomic Write Coordinator (§4.4) — on any failure inside the
unit of work every write already performed is undone, so the error case
returns the original database. -/
def create_post_with_tags (db : DB) (data : PostCreateWithTags) (now : Nat) :
    DB × Except Err PostRow :=
  if !userExists db data.authorId then
    (db, .error (.http 400 "Author not found"))
  else if !data.tagIds.isEmpty &&
      (db.tags.filter (fun t => data.tagIds.contains t.id)).length
        != data.tagIds.length then
    (db, .error (.http 400 "One or more tags not found"))
  else
    match (do
        let r ← insertPost db data.title data.content data.published
          data.authorId now
        let db2 ← insertPostTags r.2.id r.1 data.tagIds
        pure (db2, r.2) : Except Err (DB × PostRow)) with
    | .ok (db', post) => (db', .ok post)
    | .error e => (db, .error e)

/-- Query parameters of `GET /posts` (src/routes/posts.py, list_posts):
`none` models an absent query parameter; dates are naturals. -/
structure PostQuery where
  published : Option Bool
  authorId : Option Nat
  createdAfter : Option Nat
  createdBefore : Option Nat
  page : Nat
  perPage : Nat
deriving Repr, DecidableEq

/-- The filter chain of list_posts (src/routes/posts.py:54-64):
`published=`, `author_id=`, `created_at__gte=created_after`,
`created_at__lt=created_before`, each applied only when the query
parameter is present. -/
def postMatches (q : PostQuery) (p : PostRow) : Bool :=
  (match q.published with | none => true | some b => p.published == b) &&
  (match q.authorId with | none => true | some a => p.authorId == some a) &&
  (match q.createdAfter with | none => true | some d => decide (d ≤ p.createdAt)) &&
  (match q.createdBefore with | none => true | some d => decide (p.createdAt < d))

/-- `order_by("-created_at")`: descending creation time. -/
def createdDescRel (a b : PostRow) : Prop := b.createdAt ≤ a.createdAt

instance : DecidableRel createdDescRel := fun _ _ => Nat.decLe _ _

instance : IsTotal PostRow createdDescRel :=
  ⟨fun a b => Nat.le_total b.createdAt a.createdAt⟩

instance : IsTrans PostRow createdDescRel :=
  ⟨fun _ _ _ hab hbc => Nat.le_trans hbc hab⟩

/-- Response envelope of `GET /posts` (src/routes/posts.py:73-79). -/
structure ListPostsResult where
  items : List PostRow
  total : Nat
  page : Nat
  perPage : Nat
  pages : Nat
deriving Repr, DecidableEq

/-- `GET /posts` (src/routes/posts.py, list_posts): filter, count, order
by created_at descending, offset `(page - 1) * per_page`, limit
`per_page`, and report `pages = (total + per_page - 1) // per_page`. -/
def list_posts (db : DB) (q : PostQuery) : ListPostsResult :=
  { items := ((List.insertionSort createdDescRel
      (db.posts.filter (postMatches q))).drop
        ((q.page - 1) * q.perPage)).take q.perPage,
    total := (db.posts.filter (postMatches q)).length,
    page := q.page,
    perPage := q.perPage,
    pages := ((db.posts.filter (postMatches q)).length + q.perPage - 1)
      / q.perPage }

/-- One column of a migration's `create_table` call (the field dicts of
src/migrations/*.py). -/
structure FieldDef where
  name : String
  pythonType : String
  dbType : Option String
  nullable : Bool
  primaryKey : Bool
  unique : Bool
  defaultValue : Option String
  autoIncrement : Bool
deriving Repr, DecidableEq

/-- One foreign-key dict of a migration's `create_table` call. -/
structure ForeignKeyDef where
  name : String
  columns : List String
  refTable : String
  refColumns : List String
  onDelete : String
  onUpdate : String
deriving Repr, DecidableEq

/-- A table of the Schema Model: name, ordered fields, foreign keys and
unique-together groups (spec §3, Table Definition). -/
structure TableDef where
  name : String
  fields : List FieldDef
  foreignKeys : List ForeignKeyDef
  uniqueTogether : List (List String)
deriving Repr, DecidableEq

/-- The Schema Model: the registered tables, in registration order. -/
abbrev Schema := List TableDef

/-- Schema-mutation errors (spec §4.2 / §7). -/
inductive SchemaErr where
  | duplicateTable : String → SchemaErr
  | unknownTable : String → SchemaErr
deriving Repr, DecidableEq

/-- Modelled from the spec: Schema Model `register_table` (§4.2) — the
`ctx.create_table` primitive used by the migrations; fails with
`DuplicateTable` when the name is taken. -/
def create_table (s : Schema) (t : TableDef) : Except SchemaErr Schema :=
  if s.any (fun x => x.name == t.name) then
    .error (.duplicateTable t.name)
  else
    .ok (s ++ [t])

/-- Modelled from the spec: Schema Model `drop_table` (§4.2) — the
`ctx.drop_table` primitive used by the migrations; fails with
`UnknownTable` when the name is absent. -/
def drop_table (s : Schema) (n : String) : Except SchemaErr Schema :=
  if s.any (fun x => x.name == n) then
    .ok (s.filter (fun x => x.name != n))
  else
    .error (.unknownTable n)

/-- The `users` table of migration 0001 (src/migrations/0001, upgrade). -/
def usersTable : TableDef :=
  { name := "users",
    fields := [
      ⟨"id", "int", none, true, true, false, none, false⟩,
      ⟨"username", "str", none, false, false, true, none, false⟩,
      ⟨"email", "str", none, false, false, true, none, false⟩,
      ⟨"created_at", "datetime", none, true, false, false,
        some "CURRENT_TIMESTAMP", false⟩],
    foreignKeys := [],
    uniqueTogether := [] }

/-- The `posts` table of migration 0002 (src/migrations/0002, upgrade). -/
def postsTable : TableDef :=
  { name := "posts",
    fields := [
      ⟨"id", "int", none, true, true, false, none, false⟩,
      ⟨"title", "str", none, false, false, false, none, false⟩,
      ⟨"content", "str", none, false, false, false, none, false⟩,
      ⟨"published", "bool", none, false, false, false, some "0", false⟩,
      ⟨"created_at", "datetime", none, true, false, false,
        some "CURRENT_TIMESTAMP", false⟩,
      ⟨"updated_at", "datetime", none, true, false, false,
        some "CURRENT_TIMESTAMP", false⟩,
      ⟨"author_id", "int", none, true, false, false, none, false⟩],
    foreignKeys := [
      ⟨"fk_posts_author_id", ["author_id"], "users", ["id"],
        "CASCADE", "CASCADE"⟩],
    uniqueTogether := [] }

/-- The `comments` table of migration 0003 (src/migrations/0003,
upgrade). -/
def commentsTable : TableDef :=
  { name := "comments",
    fields := [
      ⟨"id", "int", none, true, true, false, none, false⟩,
      ⟨"content", "str", none, false, false, false, none, false⟩,
      ⟨"created_at", "datetime", none, true, false, false,
        some "CURRENT_TIMESTAMP", false⟩,
      ⟨"post_id", "int", none, true, false, false, none, false⟩,
      ⟨"author_id", "int", none, true, false, false, none, false⟩],
    foreignKeys := [
      ⟨"fk_comments_post_id", ["post_id"], "posts", ["id"],
        "CASCADE", "CASCADE"⟩,
      ⟨"fk_comments_author_id", ["author_id"], "users", ["id"],
        "CASCADE", "CASCADE"⟩],
    uniqueTogether := [] }

/-- The `tags` table of migration 0004 (src/migrations/0004, upgrade). -/
def tagsTable : TableDef :=
  { name := "tags",
    fields := [
      ⟨"id", "int", none, true, true, false, none, false⟩,
      ⟨"name", "str", none, false, false, true, none, false⟩,
      ⟨"slug", "str", none, false, false, true, none, false⟩],
    foreignKeys := [],
    uniqueTogether := [] }

/-- The `post_tags` table of migration 0004 (src/migrations/0004,
upgrade): the `create_table` call passes fields and foreign keys but no
unique-together constraint. -/
def postTagsTable : TableDef :=
  { name := "post_tags",
    fields := [
      ⟨"id", "int", none, true, true, false, none, false⟩,
      ⟨"post_id", "int", none, true, false, false, none, false⟩,
      ⟨"tag_id", "int", none, true, false, false, none, false⟩],
    foreignKeys := [
      ⟨"fk_post_tags_post_id", ["post_id"], "posts", ["id"],
        "CASCADE", "CASCADE"⟩,
      ⟨"fk_post_tags_tag_id", ["tag_id"], "tags", ["id"],
        "CASCADE", "CASCADE"⟩],
    uniqueTogether := [] }

/-- The `Meta.unique_together = [("post", "tag")]` declaration of the
PostTag model class (src/models.py:76). -/
def postTagModelUniqueTogether : List (List String) := [["post", "tag"]]

/-- upgrade of migration 0001 (src/migrations/0001_create_users_table.py). -/
def upgrade_0001 (s : Schema) : Except SchemaErr Schema :=
  create_table s usersTable

/-- downgrade of migration 0001. -/
def downgrade_0001 (s : Schema) : Except SchemaErr Schema :=
  drop_table s "users"

/-- upgrade of migration 0002 (src/migrations/0002_create_posts_table.py). -/
def upgrade_0002 (s : Schema) : Except SchemaErr Schema :=
  create_table s postsTable

/-- downgrade of migration 0002. -/
def downgrade_0002 (s : Schema) : Except SchemaErr Schema :=
  drop_table s "posts"

/-- upgrade of migration 0003 (src/migrations/0003_create_comments_table.py). -/
def upgrade_0003 (s : Schema) : Except SchemaErr Schema :=
  create_table s commentsTable

/-- downgrade of migration 0003. -/
def downgrade_0003 (s : Schema) : Except SchemaErr Schema :=
  drop_table s "comments"

/-- upgrade of migration 0004 (src/migrations/0004_create_tags_table.py):
create `tags`, then `post_tags`. -/
def upgrade_0004 (s : Schema) : Except SchemaErr Schema := do
  let s1 ← create_table s tagsTable
  create_table s1 postTagsTable

/-- downgrade of migration 0004: drop `post_tags`, then `tags` — the
reverse of the creation order. -/
def downgrade_0004 (s : Schema) : Except SchemaErr Schema := do
  let s1 ← drop_table s "post_tags"
  drop_table s1 "tags"

/-- A migration unit's identity: its module name and its `depends_on`
declaration (line 6 of each src/migrations/*.py). -/
structure MigrationUnit where
  name : String
  dependsOn : Option String
deriving Repr, DecidableEq

/-- The four discovered migration units with their declared
predecessors. -/
def migrationUnits : List MigrationUnit :=
  [⟨"0001_create_users_table", none⟩,
   ⟨"0002_create_posts_table", some "0001_create_users_table"⟩,
   ⟨"0003_create_comments_table", some "0002_create_posts_table"⟩,
   ⟨"0004_create_tags_table", some "0003_create_comments_table"⟩]

/-- Migration-graph errors (spec §4.1 / §7). -/
inductive ResolveErr where
  | unresolvedDependency : String → ResolveErr
  | cyclicDependency : ResolveErr
  | ambiguousRoot : ResolveErr
deriving Repr, DecidableEq

/-- A unit is ready once its predecessor (if any) has been placed. -/
def depSatisfied (placed : List String) (u : MigrationUnit) : Bool :=
  match u.dependsOn with
  | none => true
  | some d => placed.contains d

/-- Modelled from the spec: the Migration Resolver's ordering loop
(§4.1) — repeatedly place a unit whose `depends_on` is already placed;
if none is ready while units remain, the remaining dependencies form a
cycle. -/
def resolveAux : Nat → List MigrationUnit → List String →
    Except ResolveErr (List String)
  | _, [], placed => .ok placed
  | 0, _ :: _, _ => .error .cyclicDependency
  | fuel + 1, pending, placed =>
    match pending.find? (depSatisfied placed) with
    | none => .error .cyclicDependency
    | some u => resolveAux fuel (pending.erase u) (placed ++ [u.name])

/-- Modelled from the spec: the Migration Resolver (§4.1): a
`depends_on` naming no known unit fails with `UnresolvedDependency`;
two or more roots over a non-empty applied history fail with
`AmbiguousRoot`; otherwise the units are placed in dependency order,
detecting cycles. -/
def resolve (units : List MigrationUnit) (applied : List String) :
    Except ResolveErr (List String) :=
  let names := units.map (·.name)
  match units.find? (fun u => match u.dependsOn with
      | some d => !names.contains d
      | none => false) with
  | some u => .error (.unresolvedDependency (u.dependsOn.getD ""))
  | none =>
    if decide (2 ≤ (units.filter (fun u => u.dependsOn == none)).length) &&
        !applied.isEmpty then
      .error .ambiguousRoot
    else
      resolveAux units.length units []

/-- The application order the resolver must produce. -/
def resolvedOrder : List String :=
  ["0001_create_users_table", "0002_create_posts_table",
   "0003_create_comments_table", "0004_create_tags_table"]

/-- `d` occurs in the list strictly before `n`. -/
def appearsBefore (d n : String) : List String → Bool
  | [] => false
  | x :: xs => if x == d then xs.contains n
    else if x == n then false
    else appearsBefore d n xs

/-- An application order is valid when every unit comes after the unit
it depends on (spec §4.1, Contract). -/
def respectsDeps (units : List MigrationUnit) (ord : List String) : Bool :=
  units.all (fun u => match u.dependsOn with
    | none => true
    | some d => appearsBefore d u.name ord)

/-- Python's `\s` on ASCII text: space, tab, newline, carriage return,
vertical tab, form feed (src/routes/tags.py, slugify regexes). -/
def isSpaceCh (c : Char) : Bool :=
  c == ' ' || c == '\t' || c == '\n' || c == '\r' || c == '\x0b' || c == '\x0c'

/-- Python's `\w` on ASCII text: letters, digits and underscore. -/
def isWordCh (c : Char) : Bool := c.isAlphanum || c == '_'

/-- A character surviving `re.sub(r'[^\w\s-]', '', text)`. -/
def keepCh (c : Char) : Bool := isWordCh c || isSpaceCh c || c == '-'

/-- A character of the class `[\s_-]` collapsed to `-` by slugify. -/
def isSepCh (c : Char) : Bool := isSpaceCh c || c == '_' || c == '-'

/-- `re.sub(r'[\s_-]+', '-', text)`: every maximal run of separator
characters becomes a single hyphen.  The Boolean records whether the
previous character belonged to the current run. -/
def collapseAux : Bool → List Char → List Char
  | _, [] => []
  | inRun, c :: cs =>
    if isSepCh c then
      if inRun then collapseAux true cs else '-' :: collapseAux true cs
    else
      c :: collapseAux false cs

/-- The separator-collapsing substitution applied from outside a run. -/
def collapseSeps (l : List Char) : List Char := collapseAux false l

/-- Python `str.strip()` on the character list: drop leading and trailing
whitespace. -/
def stripChars (l : List Char) : List Char :=
  ((l.dropWhile isSpaceCh).reverse.dropWhile isSpaceCh).reverse

/-- `slugify` (src/routes/tags.py:14-19): lower-case, strip, drop the
characters outside `[\w\s-]`, collapse separator runs to hyphens. -/
def slugify (s : String) : String :=
  String.mk (collapseSeps ((stripChars (s.data.map Char.toLower)).filter keepCh))

/-- `POST /tags` (src/routes/tags.py, create_tag): compute the slug,
reject when a tag with that slug exists, otherwise insert the row. -/
def create_tag (db : DB) (name : String) (newId : Nat) :
    DB × Except Err TagRow :=
  if db.tags.any (fun t => t.slug == slugify name) then
    (db, .error (.http 400 "Tag already exists"))
  else
    let row : TagRow := ⟨newId, name, slugify name⟩
    ({ db with tags := db.tags ++ [row] }, .ok row)

/-- Modelled from the spec: cascade delete of `users` rows (§3 Foreign
Key, §4.3 Cascade delete), instantiated at the FK graph declared in
src/models.py and the migrations: `posts.author_id → users` (CASCADE),
`comments.author_id → users` (CASCADE), `comments.post_id → posts`
(CASCADE), `post_tags.post_id → posts` (CASCADE).  Deleting the users
matching `pred` removes their posts, their comments, the comments on
their posts and the junction rows of their posts. -/
def cascadeDeleteUsers (db : DB) (pred : UserRow → Bool) : DB :=
  let deadUserIds := (db.users.filter pred).map (·.id)
  let deadPostIds := (db.posts.filter
    (fun p => p.authorId.any (fun a => deadUserIds.contains a))).map (·.id)
  { users := db.users.filter (fun u => !pred u),
    tags := db.tags,
    posts := db.posts.filter
      (fun p => !(p.authorId.any (fun a => deadUserIds.contains a))),
    comments := db.comments.filter
      (fun c => !(c.authorId.any (fun a => deadUserIds.contains a) ||
        c.postId.any (fun i => deadPostIds.contains i))),
    postTags := db.postTags.filter
      (fun pt => !(pt.postId.any (fun i => deadPostIds.contains i))) }

/-- Modelled from the spec: cascade delete of `posts` rows, along the
declared FK edges `comments.post_id → posts` and
`post_tags.post_id → posts`, both CASCADE (src/models.py). -/
def cascadeDeletePosts (db : DB) (pred : PostRow → Bool) : DB :=
  let deadPostIds := (db.posts.filter pred).map (·.id)
  { db with
    posts := db.posts.filter (fun p => !pred p),
    comments := db.comments.filter
      (fun c => !(c.postId.any (fun i => deadPostIds.contains i))),
    postTags := db.postTags.filter
      (fun pt => !(pt.postId.any (fun i => deadPostIds.contains i))) }

/-- Modelled from the spec: cascade delete of `tags` rows, along the
declared FK edge `post_tags.tag_id → tags`, CASCADE (src/models.py). -/
def cascadeDeleteTags (db : DB) (pred : TagRow → Bool) : DB :=
  let deadTagIds := (db.tags.filter pred).map (·.id)
  { db with
    tags := db.tags.filter (fun t => !pred t),
    postTags := db.postTags.filter
      (fun pt => !(pt.tagId.any (fun i => deadTagIds.contains i))) }

/-- `DELETE /users/{user_id}` (src/routes/users.py, delete_user): delete
the matching rows (count = number of rows matched) and 404 when the
count is zero. -/
def delete_user (db : DB) (uid : Nat) : DB × Except Err Unit :=
  if (db.users.filter (fun u => u.id == uid)).length == 0 then
    (db, .error (.http 404 "User not found"))
  else
    (cascadeDeleteUsers db (fun u => u.id == uid), .ok ())

/-- `DELETE /posts/{post_id}` (src/routes/posts.py, delete_post). -/
def delete_post (db : DB) (pid : Nat) : DB × Except Err Unit :=
  if (db.posts.filter (fun p => p.id == pid)).length == 0 then
    (db, .error (.http 404 "Post not found"))
  else
    (cascadeDeletePosts db (fun p => p.id == pid), .ok ())

/-- `DELETE /tags/{slug}` (src/routes/tags.py, delete_tag). -/
def delete_tag (db : DB) (slug : String) : DB × Except Err Unit :=
  if (db.tags.filter (fun t => t.slug == slug)).length == 0 then
    (db, .error (.http 404 "Tag not found"))
  else
    (cascadeDeleteTags db (fun t => t.slug == slug), .ok ())

/-- `DELETE /posts/{post_id}/tags/{tag_id}` (src/routes/posts.py,
remove_tag_from_post): delete the junction rows matching the pair and
404 when none matched.  Nothing declares a foreign key into `post_tags`,
so no cascade applies. -/
def remove_tag_from_post (db : DB) (pid tid : Nat) : DB × Except Err Unit :=
  if (db.postTags.filter
      (fun pt => pt.postId == some pid && pt.tagId == some tid)).length == 0 then
    (db, .error (.http 404 "Relationship not found"))
  else
    let kept := db.postTags.filter
      (fun pt => !(pt.postId == some pid && pt.tagId == some tid))
    ({ db with postTags := kept }, .ok ())

end Blog

namespace Blog

/-- A successful junction insert never touches the `tags` table. -/
lemma insertPostTag_ok_tags {db db' : DB} {pid tid : Nat}
    (h : insertPostTag db pid tid = .ok db') : db'.tags = db.tags := by
  unfold insertPostTag at h
  split at h <;> simp_all
  split at h <;> simp_all
  split at h <;> simp_all
  cases h
  rfl

/-- A successful junction insert implies the referenced tag existed. -/
lemma insertPostTag_ok_tagExists {db db' : DB} {pid tid : Nat}
    (h : insertPostTag db pid tid = .ok db') : tagExists db tid = true := by
  unfold insertPostTag at h
  split at h <;> simp_all
  split at h <;> simp_all

/-- If some listed tag id has no tag row, the junction-insert loop fails. -/
lemma insertPostTags_error_of_missing (pid : Nat) :
    ∀ (ts : List Nat) (db : DB), (∃ t ∈ ts, tagExists db t = false) →
      ∃ e, insertPostTags pid db ts = .error e := by
  intro ts
  induction ts with
  | nil => rintro db ⟨t, ht, _⟩; cases ht
  | cons t0 ts ih =>
    rintro db ⟨t, ht, hmiss⟩
    unfold insertPostTags
    cases hstep : insertPostTag db pid t0 with
    | error e => exact ⟨e, rfl⟩
    | ok db' =>
      have htags := insertPostTag_ok_tags hstep
      have ht0 := insertPostTag_ok_tagExists hstep
      have htne : t ≠ t0 := by
        intro hEq; rw [hEq] at hmiss; rw [hmiss] at ht0; cases ht0
      have htmem : t ∈ ts := by
        rcases List.mem_cons.mp ht with h | h
        · exact absurd h htne
        · exact h
      have : tagExists db' t = false := by
        unfold tagExists at hmiss ⊢; rw [htags]; exact hmiss
      exact ih db' ⟨t, htmem, this⟩

/-- Binding a successful `Except` computation runs the continuation. -/
lemma exceptBind_ok {ε α β : Type} (a : α) (f : α → Except ε β) :
    (Except.ok a >>= f) = f a := rfl

/-- Binding a failed `Except` computation keeps the error. -/
lemma exceptBind_error {ε α β : Type} (e : ε) (f : α → Except ε β) :
    ((Except.error e : Except ε α) >>= f) = Except.error e := rfl

/-- Mapping over a failed `Except` computation keeps the error. -/
lemma exceptMap_error {ε α β : Type} (e : ε) (f : α → β) :
    (f <$> (Except.error e : Except ε α)) = Except.error e := rfl

/-- A successful post insert never touches the `tags` table. -/
lemma insertPost_ok_tags {db : DB} {r : DB × PostRow} {ti co : String}
    {pb : Bool} {aid now : Nat}
    (h : insertPost db ti co pb aid now = .ok r) : r.1.tags = db.tags := by
  unfold insertPost at h
  split at h <;> simp_all
  rw [← h]

/-- C1: a create_post_with_tags request listing at least one tag id with
no existing tag row fails, and the database is left exactly as before the
call: no new row in posts, comments or post_tags, and the posts count is
unchanged. -/
theorem create_post_with_tags_atomic (db : DB) (data : PostCreateWithTags)
    (now : Nat) (h : ∃ t ∈ data.tagIds, tagExists db t = false) :
    (create_post_with_tags db data now).1 = db ∧
    (create_post_with_tags db data now).1.posts.length = db.posts.length ∧
    (create_post_with_tags db data now).1.comments = db.comments ∧
    (create_post_with_tags db data now).1.postTags = db.postTags ∧
    ∃ e, (create_post_with_tags db data now).2 = .error e := by
  obtain ⟨t, htmem, htmiss⟩ := h
  have hkey : ∃ e, create_post_with_tags db data now = (db, .error e) := by
    unfold create_post_with_tags
    by_cases hu : (!userExists db data.authorId) = true
    · exact ⟨.http 400 "Author not found", by rw [if_pos hu]⟩
    · rw [if_neg hu]
      have hu' : userExists db data.authorId = true := by
        cases hx : userExists db data.authorId with
        | true => rfl
        | false => exact absurd (by rw [hx]; rfl) hu
      by_cases h2 : (!data.tagIds.isEmpty &&
          (db.tags.filter (fun t => data.tagIds.contains t.id)).length
            != data.tagIds.length) = true
      · exact ⟨.http 400 "One or more tags not found", by rw [if_pos h2]⟩
      · rw [if_neg h2]
        obtain ⟨r, hr⟩ : ∃ r, insertPost db data.title data.content
            data.published data.authorId now = .ok r := by
          unfold insertPost
          rw [if_pos hu']
          exact ⟨_, rfl⟩
        have hrtags : r.1.tags = db.tags := insertPost_ok_tags hr
        have hmiss' : tagExists r.1 t = false := by
          unfold tagExists at htmiss ⊢
          rw [hrtags]
          exact htmiss
        obtain ⟨e, he⟩ :=
          insertPostTags_error_of_missing r.2.id data.tagIds r.1
            ⟨t, htmem, hmiss'⟩
        refine ⟨e, ?_⟩
        have hstep : (do
            let r ← insertPost db data.title data.content data.published
              data.authorId now
            let db2 ← insertPostTags r.2.id r.1 data.tagIds
            pure (db2, r.2) : Except Err (DB × PostRow)) = .error e := by
          simp only [hr, exceptBind_ok, he, exceptBind_error, exceptMap_error]
        rw [hstep]
  obtain ⟨e, he⟩ := hkey
  rw [he]
  exact ⟨rfl, rfl, rfl, rfl, e, rfl⟩

/-- C1 witness: tags 1 and 2 exist but 999 does not; the request
`create_post_with_tags(title="T", content="C", author_id=1,
tag_ids=[1, 999, 2])` fails and leaves the database unchanged. -/
theorem create_post_with_tags_atomic_witness :
    (∃ t ∈ [1, 999, 2], tagExists
      { users := [⟨1, "alice", "a@x.io", 0⟩],
        tags := [⟨1, "lean", "lean"⟩, ⟨2, "python", "python"⟩],
        posts := [], comments := [], postTags := [] } t = false) ∧
    (create_post_with_tags
      { users := [⟨1, "alice", "a@x.io", 0⟩],
        tags := [⟨1, "lean", "lean"⟩, ⟨2, "python", "python"⟩],
        posts := [], comments := [], postTags := [] }
      ⟨"T", "C", 1, false, [1, 999, 2]⟩ 7).1 =
      { users := [⟨1, "alice", "a@x.io", 0⟩],
        tags := [⟨1, "lean", "lean"⟩, ⟨2, "python", "python"⟩],
        posts := [], comments := [], postTags := [] } ∧
    ∃ e, (create_post_with_tags
      { users := [⟨1, "alice", "a@x.io", 0⟩],
        tags := [⟨1, "lean", "lean"⟩, ⟨2, "python", "python"⟩],
        posts := [], comments := [], postTags := [] }
      ⟨"T", "C", 1, false, [1, 999, 2]⟩ 7).2 = .error e := by
  have hmiss : ∃ t ∈ [1, 999, 2], tagExists
      { users := [⟨1, "alice", "a@x.io", 0⟩],
        tags := [⟨1, "lean", "lean"⟩, ⟨2, "python", "python"⟩],
        posts := [], comments := [], postTags := [] } t = false :=
    ⟨999, by simp, rfl⟩
  have hmain := create_post_with_tags_atomic
    { users := [⟨1, "alice", "a@x.io", 0⟩],
      tags := [⟨1, "lean", "lean"⟩, ⟨2, "python", "python"⟩],
      posts := [], comments := [], postTags := [] }
    ⟨"T", "C", 1, false, [1, 999, 2]⟩ 7 hmiss
  exact ⟨hmiss, hmain.1, hmain.2.2.2.2⟩

/-- C6: creating a user whose username already exists fails with the
uniqueness rejection, inserts no row and leaves the database — in
particular the existing user's row — unchanged. -/
theorem create_user_unique_username (db : DB) (data : UserCreate)
    (newId now : Nat)
    (h : ∃ u ∈ db.users, u.username = data.username) :
    (create_user db data newId now).1 = db ∧
      (create_user db data newId now).2 =
        .error (.http 400 "Username already taken") := by
  obtain ⟨u, hu, huser⟩ := h
  have hany : db.users.any (fun v => v.username == data.username) = true := by
    exact List.any_eq_true.mpr ⟨u, hu, by simp [huser]⟩
  simp [create_user, hany]

/-- A concrete one-user database used by witnesses. -/
def dbAlice : DB :=
  { users := [⟨1, "alice", "a@x.io", 0⟩], tags := [], posts := [],
    comments := [], postTags := [] }

/-- C6 witness: a concrete database with user "alice"; re-creating
"alice" is rejected and the state is untouched. -/
theorem create_user_unique_username_witness :
    (∃ u ∈ dbAlice.users, u.username = "alice") ∧
    (create_user dbAlice ⟨"alice", "b@x.io"⟩ 2 5).1 = dbAlice ∧
    (create_user dbAlice ⟨"alice", "b@x.io"⟩ 2 5).2 =
      .error (.http 400 "Username already taken") := by
  refine ⟨⟨⟨1, "alice", "a@x.io", 0⟩, by simp [dbAlice], rfl⟩, ?_⟩
  exact create_user_unique_username dbAlice ⟨"alice", "b@x.io"⟩ 2 5
    ⟨⟨1, "alice", "a@x.io", 0⟩, by simp [dbAlice], rfl⟩

/-- C2: deleting a user who has at least one post and at least one
comment removes, transitively, every row whose foreign-key chain points
at them: afterwards no post has them as author, no comment has them as
author or sits on one of their posts, no junction row references one of
their posts, and the user row itself is gone. -/
theorem delete_user_cascades (db : DB) (uid : Nat)
    (hu : ∃ u ∈ db.users, u.id = uid)
    (hp : ∃ p ∈ db.posts, p.authorId = some uid)
    (hc : ∃ c ∈ db.comments, c.authorId = some uid) :
    (delete_user db uid).2 = .ok () ∧
    (∀ u ∈ (delete_user db uid).1.users, u.id ≠ uid) ∧
    (∀ p ∈ (delete_user db uid).1.posts, p.authorId ≠ some uid) ∧
    (∀ c ∈ (delete_user db uid).1.comments, c.authorId ≠ some uid) ∧
    (∀ c ∈ (delete_user db uid).1.comments, ∀ p ∈ db.posts,
      p.authorId = some uid → c.postId ≠ some p.id) ∧
    (∀ pt ∈ (delete_user db uid).1.postTags, ∀ p ∈ db.posts,
      p.authorId = some uid → pt.postId ≠ some p.id) := by
  obtain ⟨u0, hu0, hu0id⟩ := hu
  have hu0f : u0 ∈ db.users.filter (fun u => u.id == uid) :=
    List.mem_filter.mpr ⟨hu0, by simp [hu0id]⟩
  have hcond : ((db.users.filter (fun u => u.id == uid)).length == 0) = false := by
    have : (db.users.filter (fun u => u.id == uid)).length ≠ 0 := by
      intro hlen
      rw [List.length_eq_zero] at hlen
      rw [hlen] at hu0f
      cases hu0f
    simpa using this
  have hres : delete_user db uid =
      (cascadeDeleteUsers db (fun u => u.id == uid), .ok ()) := by
    unfold delete_user
    rw [hcond]
    simp
  have huidmem : uid ∈ (db.users.filter (fun u => u.id == uid)).map (·.id) :=
    List.mem_map.mpr ⟨u0, hu0f, hu0id⟩
  have hdP : ∀ p ∈ db.posts, p.authorId = some uid →
      p.id ∈ (db.posts.filter (fun p => p.authorId.any
        (fun a => ((db.users.filter (fun u => u.id == uid)).map
          (·.id)).contains a))).map (·.id) := by
    intro p hpmem hpa
    refine List.mem_map.mpr ⟨p, List.mem_filter.mpr ⟨hpmem, ?_⟩, rfl⟩
    rw [hpa]
    simpa using huidmem
  rw [hres]
  simp only [cascadeDeleteUsers]
  refine ⟨trivial, ?_, ?_, ?_, ?_, ?_⟩
  · intro u humem
    have := (List.mem_filter.mp humem).2
    simpa using this
  · intro p hpmem hpa
    have := (List.mem_filter.mp hpmem).2
    rw [hpa] at this
    simp at this
    exact absurd huidmem (by simpa using this)
  · intro c hcmem hca
    have := (List.mem_filter.mp hcmem).2
    rw [hca] at this
    simp at this
    exact absurd huidmem (by simpa using this.1)
  · intro c hcmem p hpmem hpa hcpost
    have := (List.mem_filter.mp hcmem).2
    rw [hcpost] at this
    simp at this
    exact absurd (hdP p hpmem hpa) (by simpa using this.2)
  · intro pt hptmem p hpmem hpa hptpost
    have := (List.mem_filter.mp hptmem).2
    rw [hptpost] at this
    simp at this
    exact absurd (hdP p hpmem hpa) (by simpa using this)

/-- A concrete database for the cascade witnesses: alice (id 1) has one
post (id 1) carrying tag 1, one comment by her sits on that post. -/
def dbCascade : DB :=
  { users := [⟨1, "alice", "a@x.io", 0⟩, ⟨2, "bob", "b@x.io", 0⟩],
    tags := [⟨1, "lean", "lean"⟩],
    posts := [⟨1, "T", "C", true, 3, 3, some 1⟩],
    comments := [⟨1, "Nice", 4, some 1, some 1⟩],
    postTags := [⟨1, some 1, some 1⟩] }

/-- C2 witness: deleting alice from the concrete database succeeds and
leaves no post, comment or junction row chained to her. -/
theorem delete_user_cascades_witness :
    (∃ u ∈ dbCascade.users, u.id = 1) ∧
    (∃ p ∈ dbCascade.posts, p.authorId = some 1) ∧
    (∃ c ∈ dbCascade.comments, c.authorId = some 1) ∧
    (delete_user dbCascade 1).2 = .ok () ∧
    (∀ u ∈ (delete_user dbCascade 1).1.users, u.id ≠ 1) := by
  have h1 : ∃ u ∈ dbCascade.users, u.id = 1 :=
    ⟨⟨1, "alice", "a@x.io", 0⟩, by simp [dbCascade], rfl⟩
  have h2 : ∃ p ∈ dbCascade.posts, p.authorId = some 1 :=
    ⟨⟨1, "T", "C", true, 3, 3, some 1⟩, by simp [dbCascade], rfl⟩
  have h3 : ∃ c ∈ dbCascade.comments, c.authorId = some 1 :=
    ⟨⟨1, "Nice", 4, some 1, some 1⟩, by simp [dbCascade], rfl⟩
  have h := delete_user_cascades dbCascade 1 h1 h2 h3
  exact ⟨h1, h2, h3, h.1, h.2.1⟩

/-- Frame facts for `delete_tag`: only the tags matching the slug and
the junction rows referencing them disappear; posts, users and comments
are untouched. -/
lemma delete_tag_frame (db : DB) (slug : String) :
    (delete_tag db slug).1.posts = db.posts ∧
    (delete_tag db slug).1.users = db.users ∧
    (delete_tag db slug).1.comments = db.comments ∧
    (∀ t ∈ (delete_tag db slug).1.tags, t.slug ≠ slug) ∧
    (∀ pt ∈ (delete_tag db slug).1.postTags, ∀ t ∈ db.tags,
      t.slug = slug → pt.tagId ≠ some t.id) := by
  by_cases hc : ((db.tags.filter (fun t => t.slug == slug)).length == 0) = true
  · have hnil : db.tags.filter (fun t => t.slug == slug) = [] := by
      rw [← List.length_eq_zero]
      simpa using hc
    have hno : ∀ t ∈ db.tags, ¬(t.slug = slug) := by
      intro t ht hEq
      have : t ∈ db.tags.filter (fun t => t.slug == slug) :=
        List.mem_filter.mpr ⟨ht, by simp [hEq]⟩
      rw [hnil] at this
      cases this
    have hres : delete_tag db slug = (db, .error (.http 404 "Tag not found")) := by
      unfold delete_tag
      rw [hc]
      simp
    rw [hres]
    exact ⟨rfl, rfl, rfl, fun t ht => hno t ht,
      fun pt _ t ht hEq _ => hno t ht hEq⟩
  · have hres : delete_tag db slug =
        (cascadeDeleteTags db (fun t => t.slug == slug), .ok ()) := by
      unfold delete_tag
      simp only [Bool.not_eq_true] at hc
      rw [hc]
      simp
    rw [hres]
    simp only [cascadeDeleteTags]
    refine ⟨by trivial, by trivial, by trivial, ?_, ?_⟩
    · intro t htmem
      have := (List.mem_filter.mp htmem).2
      simpa using this
    · intro pt hptmem t htmem hEq hid
      have hdead : t.id ∈ (db.tags.filter (fun t => t.slug == slug)).map (·.id) :=
        List.mem_map.mpr ⟨t, List.mem_filter.mpr ⟨htmem, by simp [hEq]⟩, rfl⟩
      have := (List.mem_filter.mp hptmem).2
      rw [hid] at this
      simp at this
      exact absurd hdead (by simpa using this)

/-- Frame facts for `delete_post`: tags and users survive, and once the
post existed its junction rows are gone. -/
lemma delete_post_frame (db : DB) (pid : Nat) :
    (delete_post db pid).1.tags = db.tags ∧
    (delete_post db pid).1.users = db.users ∧
    ((∃ p ∈ db.posts, p.id = pid) →
      ∀ pt ∈ (delete_post db pid).1.postTags, pt.postId ≠ some pid) := by
  by_cases hc : ((db.posts.filter (fun p => p.id == pid)).length == 0) = true
  · have hnil : db.posts.filter (fun p => p.id == pid) = [] := by
      rw [← List.length_eq_zero]
      simpa using hc
    have hres : delete_post db pid = (db, .error (.http 404 "Post not found")) := by
      unfold delete_post
      rw [hc]
      simp
    rw [hres]
    refine ⟨rfl, rfl, ?_⟩
    rintro ⟨p, hpmem, hpid⟩
    have : p ∈ db.posts.filter (fun p => p.id == pid) :=
      List.mem_filter.mpr ⟨hpmem, by simp [hpid]⟩
    rw [hnil] at this
    cases this
  · have hres : delete_post db pid =
        (cascadeDeletePosts db (fun p => p.id == pid), .ok ()) := by
      unfold delete_post
      simp only [Bool.not_eq_true] at hc
      rw [hc]
      simp
    rw [hres]
    simp only [cascadeDeletePosts]
    refine ⟨by trivial, by trivial, ?_⟩
    rintro ⟨p, hpmem, hpid⟩ pt hptmem hid
    have hdead : pid ∈ (db.posts.filter (fun p => p.id == pid)).map (·.id) :=
      List.mem_map.mpr ⟨p, List.mem_filter.mpr ⟨hpmem, by simp [hpid]⟩, hpid⟩
    have := (List.mem_filter.mp hptmem).2
    rw [hid] at this
    simp at this
    exact absurd hdead (by simpa using this)

/-- Frame facts for `remove_tag_from_post`: it removes exactly the
junction rows matching the pair and never a post, tag, user or
comment row. -/
lemma remove_tag_from_post_frame (db : DB) (pid tid : Nat) :
    (remove_tag_from_post db pid tid).1.posts = db.posts ∧
    (remove_tag_from_post db pid tid).1.tags = db.tags ∧
    (remove_tag_from_post db pid tid).1.users = db.users ∧
    (remove_tag_from_post db pid tid).1.comments = db.comments ∧
    (remove_tag_from_post db pid tid).1.postTags =
      db.postTags.filter
        (fun pt => !(pt.postId == some pid && pt.tagId == some tid)) := by
  by_cases hc : ((db.postTags.filter
      (fun pt => pt.postId == some pid && pt.tagId == some tid)).length == 0) = true
  · have hnil : db.postTags.filter
        (fun pt => pt.postId == some pid && pt.tagId == some tid) = [] := by
      rw [← List.length_eq_zero]
      simpa using hc
    have hres : remove_tag_from_post db pid tid =
        (db, .error (.http 404 "Relationship not found")) := by
      unfold remove_tag_from_post
      rw [hc]
      simp
    rw [hres]
    refine ⟨rfl, rfl, rfl, rfl, ?_⟩
    have hall : ∀ pt ∈ db.postTags,
        (pt.postId == some pid && pt.tagId == some tid) = false := by
      intro pt hpt
      by_contra hne
      have : pt ∈ db.postTags.filter
          (fun pt => pt.postId == some pid && pt.tagId == some tid) :=
        List.mem_filter.mpr ⟨hpt, by simpa using hne⟩
      rw [hnil] at this
      cases this
    have : db.postTags.filter
        (fun pt => !(pt.postId == some pid && pt.tagId == some tid)) =
        db.postTags :=
      List.filter_eq_self.mpr (fun pt hpt => by simp [hall pt hpt])
    rw [this]
  · have hc' : ((db.postTags.filter
        (fun pt => pt.postId == some pid && pt.tagId == some tid)).length
          == 0) = false := by
      simpa using hc
    unfold remove_tag_from_post
    rw [hc']
    simp

/-- C7: deleting a tag removes the tag row and its junction rows while
every post row survives; deleting a post removes its junction rows while
every tag row survives; and removing a single association deletes only
the matching junction rows, never a post or tag row. -/
theorem m2m_removal_never_deletes_other_side (db : DB) (slug : String)
    (pid tid : Nat) :
    (delete_tag db slug).1.posts = db.posts ∧
    (∀ t ∈ (delete_tag db slug).1.tags, t.slug ≠ slug) ∧
    (∀ pt ∈ (delete_tag db slug).1.postTags, ∀ t ∈ db.tags,
      t.slug = slug → pt.tagId ≠ some t.id) ∧
    (delete_post db pid).1.tags = db.tags ∧
    ((∃ p ∈ db.posts, p.id = pid) →
      ∀ pt ∈ (delete_post db pid).1.postTags, pt.postId ≠ some pid) ∧
    (remove_tag_from_post db pid tid).1.posts = db.posts ∧
    (remove_tag_from_post db pid tid).1.tags = db.tags ∧
    (remove_tag_from_post db pid tid).1.postTags =
      db.postTags.filter
        (fun pt => !(pt.postId == some pid && pt.tagId == some tid)) := by
  obtain ⟨htp, _, _, htg, htj⟩ := delete_tag_frame db slug
  obtain ⟨hpt, _, hpj⟩ := delete_post_frame db pid
  obtain ⟨hrp, hrt, _, _, hrj⟩ := remove_tag_from_post_frame db pid tid
  exact ⟨htp, htg, htj, hpt, hpj, hrp, hrt, hrj⟩

/-- C7 witness: in the concrete database, removing the association
between post 1 and tag 1 keeps the post and tag tables intact, and
deleting the post removes its junction row. -/
theorem m2m_removal_never_deletes_other_side_witness :
    (remove_tag_from_post dbCascade 1 1).1.posts = dbCascade.posts ∧
    (remove_tag_from_post dbCascade 1 1).1.tags = dbCascade.tags ∧
    (∃ p ∈ dbCascade.posts, p.id = 1) ∧
    (∀ pt ∈ (delete_post dbCascade 1).1.postTags, pt.postId ≠ some 1) := by
  have h := m2m_removal_never_deletes_other_side dbCascade "lean" 1 1
  have hex : ∃ p ∈ dbCascade.posts, p.id = 1 :=
    ⟨⟨1, "T", "C", true, 3, 3, some 1⟩, by simp [dbCascade], rfl⟩
  exact ⟨h.2.2.2.2.2.1, h.2.2.2.2.2.2.1, hex, h.2.2.2.2.1 hex⟩

/-- C8: for any page ≥ 1 and 1 ≤ per_page ≤ 100, list_posts reports
`pages = (total + per_page - 1) // per_page`, which is the ceiling of
total / per_page (total fits in pages·per_page and, when total > 0, does
not fit in one page fewer); it returns at most per_page items, and the
items are the window at offset (page-1)·per_page of the filtered rows
ordered by created_at descending. -/
theorem list_posts_pagination (db : DB) (q : PostQuery)
    (h1 : 1 ≤ q.perPage) (h100 : q.perPage ≤ 100) (hpage : 1 ≤ q.page) :
    (list_posts db q).total = (db.posts.filter (postMatches q)).length ∧
    (list_posts db q).pages =
      ((list_posts db q).total + q.perPage - 1) / q.perPage ∧
    ((list_posts db q).total ≤ (list_posts db q).pages * q.perPage) ∧
    (0 < (list_posts db q).total →
      ((list_posts db q).pages - 1) * q.perPage < (list_posts db q).total) ∧
    ((list_posts db q).total = 0 → (list_posts db q).pages = 0) ∧
    (list_posts db q).items.length ≤ q.perPage ∧
    (list_posts db q).items =
      ((List.insertionSort createdDescRel
        (db.posts.filter (postMatches q))).drop
          ((q.page - 1) * q.perPage)).take q.perPage ∧
    List.Sorted createdDescRel
      (List.insertionSort createdDescRel (db.posts.filter (postMatches q))) ∧
    List.Perm
      (List.insertionSort createdDescRel (db.posts.filter (postMatches q)))
      (db.posts.filter (postMatches q)) := by
  have hpp : 0 < q.perPage := h1
  refine ⟨rfl, rfl, ?_, ?_, ?_, ?_, rfl, ?_, ?_⟩
  · simp only [list_posts]
    generalize (db.posts.filter (postMatches q)).length = t
    cases t with
    | zero => simp
    | succ n =>
      have heq : n + 1 + q.perPage - 1 = n + q.perPage := by omega
      rw [heq, Nat.add_div_right n hpp]
      nlinarith [Nat.div_add_mod n q.perPage, Nat.mod_lt n hpp]
  · simp only [list_posts]
    generalize (db.posts.filter (postMatches q)).length = t
    intro ht
    cases t with
    | zero => cases ht
    | succ n =>
      have heq : n + 1 + q.perPage - 1 = n + q.perPage := by omega
      rw [heq, Nat.add_div_right n hpp]
      simp only [Nat.add_sub_cancel]
      have := Nat.div_mul_le_self n q.perPage
      omega
  · simp only [list_posts]
    intro ht
    rw [ht]
    exact Nat.div_eq_of_lt (by omega)
  · simp only [list_posts]
    exact List.length_take_le _ _
  · exact List.sorted_insertionSort createdDescRel _
  · exact List.perm_insertionSort createdDescRel _

/-- A concrete three-post database and query for the C8 witness. -/
def dbPag : DB :=
  { users := [⟨1, "alice", "a@x.io", 0⟩],
    tags := [],
    posts := [⟨1, "A", "a", true, 5, 5, some 1⟩,
      ⟨2, "B", "b", true, 9, 9, some 1⟩,
      ⟨3, "Z", "z", true, 7, 7, some 1⟩],
    comments := [], postTags := [] }

/-- The C8 witness query: no filters, page 1, two records per page. -/
def qPag : PostQuery := ⟨none, none, none, none, 1, 2⟩

/-- C8 witness: with three matching posts and per_page = 2, the total
fits in pages·per_page, a single page fewer would not suffice, and at
most two items come back. -/
theorem list_posts_pagination_witness :
    1 ≤ qPag.perPage ∧ qPag.perPage ≤ 100 ∧ 1 ≤ qPag.page ∧
    (list_posts dbPag qPag).total ≤ (list_posts dbPag qPag).pages * 2 ∧
    (0 < (list_posts dbPag qPag).total →
      ((list_posts dbPag qPag).pages - 1) * 2 <
        (list_posts dbPag qPag).total) ∧
    (list_posts dbPag qPag).items.length ≤ 2 := by
  have h := list_posts_pagination dbPag qPag (by decide) (by decide) (by decide)
  exact ⟨by decide, by decide, by decide, h.2.2.1, h.2.2.2.1, h.2.2.2.2.2.1⟩

/-- C4: with the four discovered units, resolution (from an empty
ledger) succeeds with no error and yields exactly the order
0001, 0002, 0003, 0004; exactly one unit declares no predecessor, each
of the others names exactly the immediately preceding unit, and that
order is the unique dependency-respecting total order of the four
names. -/
theorem migration_resolution_linear_chain :
    resolve migrationUnits [] = .ok resolvedOrder ∧
    (migrationUnits.filter (fun u => u.dependsOn == none)).length = 1 ∧
    migrationUnits.map (·.name) = resolvedOrder ∧
    List.Chain' (fun u v => v.dependsOn = some u.name) migrationUnits ∧
    (∀ ord, List.Perm ord resolvedOrder →
      respectsDeps migrationUnits ord = true → ord = resolvedOrder) := by
  refine ⟨rfl, rfl, rfl, by simp [migrationUnits, List.chain'_cons], ?_⟩
  intro ord hperm hresp
  have hmem : ord ∈ resolvedOrder.permutations' :=
    List.mem_permutations'.mpr hperm
  have hfilter : resolvedOrder.permutations'.filter
      (respectsDeps migrationUnits) = [resolvedOrder] := by decide
  have hin : ord ∈ resolvedOrder.permutations'.filter
      (respectsDeps migrationUnits) :=
    List.mem_filter.mpr ⟨hmem, hresp⟩
  rw [hfilter] at hin
  simpa using hin

/-- C4 witness: the resolved order itself is a dependency-respecting
permutation of the names, so the uniqueness conjunct applies to it. -/
theorem migration_resolution_linear_chain_witness :
    List.Perm resolvedOrder resolvedOrder ∧
    respectsDeps migrationUnits resolvedOrder = true ∧
    resolvedOrder = resolvedOrder := by
  refine ⟨List.Perm.refl _, by decide, ?_⟩
  exact migration_resolution_linear_chain.2.2.2.2 resolvedOrder
    (List.Perm.refl _) (by decide)

/-- Creating a fresh table and then dropping it by name restores the
schema exactly. -/
lemma create_drop_roundtrip {s s' : Schema} {t : TableDef}
    (h : create_table s t = .ok s') : drop_table s' t.name = .ok s := by
  unfold create_table at h
  split at h
  · cases h
  · rename_i hany
    cases h
    have hallne : ∀ x ∈ s, (x.name == t.name) = false := by
      intro x hx
      by_contra hne
      exact hany (List.any_eq_true.mpr ⟨x, hx, by simpa using hne⟩)
    unfold drop_table
    rw [if_pos (List.any_eq_true.mpr
      ⟨t, List.mem_append.mpr (Or.inr (List.mem_singleton.mpr rfl)), by simp⟩)]
    congr 1
    rw [List.filter_append]
    have h1 : s.filter (fun x => x.name != t.name) = s :=
      List.filter_eq_self.mpr (fun x hx => by simp [bne, hallne x hx])
    have h2 : [t].filter (fun x => x.name != t.name) = [] := by simp
    rw [h1, h2, List.append_nil]

/-- C5: for each of the four migration units, running upgrade and then
downgrade restores the schema model to exactly the state before the
upgrade; in unit 0004 the downgrade drops post_tags then tags, the
reverse of the creation order. -/
theorem migration_downgrade_inverse (s1 s1' s2 s2' s3 s3' s4 s4' : Schema) :
    (upgrade_0001 s1 = .ok s1' → downgrade_0001 s1' = .ok s1) ∧
    (upgrade_0002 s2 = .ok s2' → downgrade_0002 s2' = .ok s2) ∧
    (upgrade_0003 s3 = .ok s3' → downgrade_0003 s3' = .ok s3) ∧
    (upgrade_0004 s4 = .ok s4' → downgrade_0004 s4' = .ok s4) := by
  refine ⟨fun h => create_drop_roundtrip h, fun h => create_drop_roundtrip h,
    fun h => create_drop_roundtrip h, fun h => ?_⟩
  unfold upgrade_0004 at h
  cases hstep : create_table s4 tagsTable with
  | error e =>
    rw [hstep, exceptBind_error] at h
    cases h
  | ok smid =>
    rw [hstep, exceptBind_ok] at h
    unfold downgrade_0004
    have hdrop1 : drop_table s4' "post_tags" = .ok smid :=
      create_drop_roundtrip h
    rw [hdrop1, exceptBind_ok]
    exact create_drop_roundtrip hstep

/-- C5 witness: applying the chain from the empty schema, each
downgrade returns exactly the schema its upgrade started from. -/
theorem migration_downgrade_inverse_witness :
    downgrade_0001 [usersTable] = .ok [] ∧
    downgrade_0002 [usersTable, postsTable] = .ok [usersTable] ∧
    downgrade_0003 [usersTable, postsTable, commentsTable] =
      .ok [usersTable, postsTable] ∧
    downgrade_0004
      [usersTable, postsTable, commentsTable, tagsTable, postTagsTable] =
      .ok [usersTable, postsTable, commentsTable] := by
  have h := migration_downgrade_inverse
    [] [usersTable]
    [usersTable] [usersTable, postsTable]
    [usersTable, postsTable] [usersTable, postsTable, commentsTable]
    [usersTable, postsTable, commentsTable]
    [usersTable, postsTable, commentsTable, tagsTable, postTagsTable]
  exact ⟨h.1 rfl, h.2.1 rfl, h.2.2.1 rfl, h.2.2.2 rfl⟩

/-- C3 divergence, evaluated: the PostTag model class declares
`unique_together = [("post", "tag")]`, but the `post_tags` table that
migration 0004 creates (run here on the schema left by 0001-0003)
carries no unique-together constraint at all. -/
theorem post_tags_migration_lacks_unique_together :
    postTagModelUniqueTogether = [["post", "tag"]] ∧
    upgrade_0004 [usersTable, postsTable, commentsTable] =
      .ok [usersTable, postsTable, commentsTable, tagsTable, postTagsTable] ∧
    postTagsTable.name = "post_tags" ∧
    postTagsTable.uniqueTogether = [] :=
  ⟨rfl, rfl, rfl, rfl⟩

/-- `Char.ofNat` at a valid code point keeps its numeric value. -/
lemma charToNat_ofNat_valid {n : Nat} (hv : n.isValidChar) :
    (Char.ofNat n).toNat = n := by
  rw [Char.ofNat, dif_pos hv]
  rfl

/-- ASCII lower-casing is idempotent. -/
lemma toLower_toLower (c : Char) :
    Char.toLower (Char.toLower c) = Char.toLower c := by
  unfold Char.toLower
  by_cases h : 65 ≤ c.toNat ∧ c.toNat ≤ 90
  · rw [if_pos h]
    have hv : (c.toNat + 32).isValidChar := Or.inl (by omega)
    rw [if_neg (by rw [charToNat_ofNat_valid hv]; omega)]
  · rw [if_neg h, if_neg h]

/-- Every character the collapsing pass emits is either the hyphen it
inserts or a non-separator character of its input. -/
lemma collapseAux_mem : ∀ (l : List Char) (b : Bool) (c : Char),
    c ∈ collapseAux b l → c = '-' ∨ (c ∈ l ∧ isSepCh c = false) := by
  intro l
  induction l with
  | nil => intro b c hc; cases hc
  | cons c0 cs ih =>
    intro b c hc
    by_cases hsep : isSepCh c0 = true
    · rw [show collapseAux b (c0 :: cs) =
          if b then collapseAux true cs else '-' :: collapseAux true cs by
        simp [collapseAux, hsep]] at hc
      cases b with
      | true =>
        rw [if_pos rfl] at hc
        rcases ih true c hc with h | ⟨hm, hs⟩
        · exact Or.inl h
        · exact Or.inr ⟨List.mem_cons_of_mem c0 hm, hs⟩
      | false =>
        rw [if_neg Bool.false_ne_true] at hc
        rcases List.mem_cons.mp hc with h | h
        · exact Or.inl h
        · rcases ih true c h with h' | ⟨hm, hs⟩
          · exact Or.inl h'
          · exact Or.inr ⟨List.mem_cons_of_mem c0 hm, hs⟩
    · have hsep' : isSepCh c0 = false := by
        cases hx : isSepCh c0 with
        | true => exact absurd hx hsep
        | false => rfl
      rw [show collapseAux b (c0 :: cs) = c0 :: collapseAux false cs by
        simp [collapseAux, hsep']] at hc
      rcases List.mem_cons.mp hc with h | h
      · exact Or.inr ⟨h ▸ List.mem_cons_self c0 cs, h ▸ hsep'⟩
      · rcases ih false c h with h' | ⟨hm, hs⟩
        · exact Or.inl h'
        · exact Or.inr ⟨List.mem_cons_of_mem c0 hm, hs⟩

/-- Collapsing with the in-run flag set never emits a leading separator. -/
lemma collapseAux_true_head : ∀ l : List Char,
    collapseAux true l = [] ∨
      ∃ c cs, collapseAux true l = c :: cs ∧ isSepCh c = false := by
  intro l
  induction l with
  | nil => exact Or.inl rfl
  | cons c0 cs ih =>
    by_cases hsep : isSepCh c0 = true
    · rw [show collapseAux true (c0 :: cs) = collapseAux true cs by
        simp [collapseAux, hsep]]
      exact ih
    · have hsep' : isSepCh c0 = false := by
        cases hx : isSepCh c0 with
        | true => exact absurd hx hsep
        | false => rfl
      exact Or.inr ⟨c0, collapseAux false cs, by simp [collapseAux, hsep'], hsep'⟩

/-- On a list that is empty or starts with a non-separator, the in-run
flag is irrelevant. -/
lemma collapseAux_agree {l : List Char} (b b' : Bool)
    (h : l = [] ∨ ∃ c cs, l = c :: cs ∧ isSepCh c = false) :
    collapseAux b l = collapseAux b' l := by
  rcases h with rfl | ⟨c, cs, rfl, hc⟩
  · rfl
  · simp [collapseAux, hc]

/-- The separator-collapsing pass is idempotent. -/
lemma collapseAux_idem : ∀ (l : List Char) (b : Bool),
    collapseAux false (collapseAux b l) = collapseAux b l := by
  intro l
  induction l with
  | nil => intro b; rfl
  | cons c0 cs ih =>
    intro b
    by_cases hsep : isSepCh c0 = true
    · cases b with
      | true =>
        rw [show collapseAux true (c0 :: cs) = collapseAux true cs by
          simp [collapseAux, hsep]]
        exact ih true
      | false =>
        rw [show collapseAux false (c0 :: cs) =
            '-' :: collapseAux true cs by simp [collapseAux, hsep]]
        rw [show collapseAux false ('-' :: collapseAux true cs) =
            '-' :: collapseAux true (collapseAux true cs) by
          simp [collapseAux, isSepCh, isSpaceCh]]
        rw [collapseAux_agree true false (collapseAux_true_head cs), ih true]
    · have hsep' : isSepCh c0 = false := by
        cases hx : isSepCh c0 with
        | true => exact absurd hx hsep
        | false => rfl
      rw [show collapseAux b (c0 :: cs) = c0 :: collapseAux false cs by
        simp [collapseAux, hsep']]
      rw [show collapseAux false (c0 :: collapseAux false cs) =
          c0 :: collapseAux false (collapseAux false cs) by
        simp [collapseAux, hsep']]
      rw [ih false]

/-- A map that fixes every element of a list fixes the list. -/
lemma map_eq_self_of {α : Type} (f : α → α) (l : List α)
    (h : ∀ c ∈ l, f c = c) : l.map f = l := by
  induction l with
  | nil => rfl
  | cons c cs ih =>
    simp only [List.map_cons, h c (List.mem_cons_self c cs)]
    rw [ih (fun x hx => h x (List.mem_cons_of_mem c hx))]

/-- dropWhile is the identity when no element satisfies the predicate. -/
lemma dropWhile_eq_self_of {α : Type} (p : α → Bool) (l : List α)
    (h : ∀ c ∈ l, p c = false) : l.dropWhile p = l := by
  cases l with
  | nil => rfl
  | cons c cs =>
    rw [List.dropWhile_cons, h c (List.mem_cons_self c cs)]
    simp

/-- Stripping is the identity on whitespace-free lists. -/
lemma stripChars_of_no_space (l : List Char)
    (h : ∀ c ∈ l, isSpaceCh c = false) : stripChars l = l := by
  unfold stripChars
  rw [dropWhile_eq_self_of isSpaceCh l h]
  rw [dropWhile_eq_self_of isSpaceCh l.reverse
    (fun c hc => h c (List.mem_reverse.mp hc))]
  exact List.reverse_reverse l

/-- Members of the stripped list are members of the original. -/
lemma mem_stripChars {l : List Char} {c : Char} (h : c ∈ stripChars l) :
    c ∈ l := by
  unfold stripChars at h
  rw [List.mem_reverse] at h
  have h1 : c ∈ (l.dropWhile isSpaceCh).reverse :=
    (List.dropWhile_sublist _).subset h
  rw [List.mem_reverse] at h1
  exact (List.dropWhile_sublist _).subset h1

/-- Every character of a slug is the inserted hyphen or a lower-cased,
kept, non-separator character. -/
lemma slugify_mem (s : String) (c : Char) (hc : c ∈ (slugify s).data) :
    c = '-' ∨
      (isSepCh c = false ∧ keepCh c = true ∧ ∃ d, c = Char.toLower d) := by
  rcases collapseAux_mem _ false c hc with h | ⟨hmem, hsep⟩
  · exact Or.inl h
  · right
    have hkeep := (List.mem_filter.mp hmem).2
    have hmem2 := (List.mem_filter.mp hmem).1
    obtain ⟨d, _, hd⟩ := List.mem_map.mp (mem_stripChars hmem2)
    exact ⟨hsep, hkeep, d, hd.symm⟩

/-- A slug contains no whitespace. -/
lemma slugify_no_space (s : String) :
    ∀ c ∈ (slugify s).data, isSpaceCh c = false := by
  intro c hc
  rcases slugify_mem s c hc with rfl | ⟨hsep, _, _⟩
  · rfl
  · have : (isSpaceCh c || c == '_' || c == '-') = false := hsep
    simp only [Bool.or_eq_false_iff] at this
    exact this.1.1

/-- Every character of a slug survives the filtering step. -/
lemma slugify_keep (s : String) :
    ∀ c ∈ (slugify s).data, keepCh c = true := by
  intro c hc
  rcases slugify_mem s c hc with rfl | ⟨_, hkeep, _⟩
  · rfl
  · exact hkeep

/-- slugify is idempotent. -/
lemma slugify_slugify (s : String) : slugify (slugify s) = slugify s := by
  have hmap : (slugify s).data.map Char.toLower = (slugify s).data := by
    refine map_eq_self_of _ _ (fun c hc => ?_)
    rcases slugify_mem s c hc with rfl | ⟨_, _, d, rfl⟩
    · rfl
    · exact toLower_toLower d
  show String.mk (collapseSeps
    ((stripChars ((slugify s).data.map Char.toLower)).filter keepCh)) =
      slugify s
  rw [hmap]
  rw [stripChars_of_no_space _ (slugify_no_space s)]
  rw [List.filter_eq_self.mpr (slugify_keep s)]
  show String.mk (collapseAux false (collapseAux false
    ((stripChars (s.data.map Char.toLower)).filter keepCh))) = slugify s
  rw [collapseAux_idem]
  rfl

/-- C9: slugify is idempotent — applying it twice equals applying it
once — and the slug stored by create_tag is a fixed point of slugify,
contains no whitespace and only characters its filtering step keeps. -/
theorem slugify_idempotent (s : String) (db : DB) (name : String)
    (newId : Nat) (row : TagRow)
    (hc : (create_tag db name newId).2 = .ok row) :
    slugify (slugify s) = slugify s ∧
    row.slug = slugify name ∧
    slugify row.slug = row.slug ∧
    (∀ c ∈ row.slug.data, isSpaceCh c = false) ∧
    (∀ c ∈ row.slug.data, keepCh c = true) := by
  have hrow : row.slug = slugify name := by
    unfold create_tag at hc
    split at hc
    · cases hc
    · cases hc
      rfl
  refine ⟨slugify_slugify s, hrow, ?_, ?_, ?_⟩
  · rw [hrow]
    exact slugify_slugify name
  · rw [hrow]
    exact slugify_no_space name
  · rw [hrow]
    exact slugify_keep name

/-- C9 witness: slugifying "Hello, World!" gives "hello-world", a fixed
point, and creating the tag stores exactly that slug. -/
theorem slugify_idempotent_witness :
    (create_tag dbAlice "Hello, World!" 1).2 =
      .ok ⟨1, "Hello, World!", "hello-world"⟩ ∧
    slugify (slugify "x_  y") = slugify "x_  y" ∧
    slugify "hello-world" = "hello-world" := by
  have hok : (create_tag dbAlice "Hello, World!" 1).2 =
      .ok ⟨1, "Hello, World!", "hello-world"⟩ := by
    have hs : slugify "Hello, World!" = "hello-world" := by decide
    unfold create_tag
    rw [hs]
    simp [dbAlice]
  have h := slugify_idempotent "x_  y" dbAlice "Hello, World!" 1
    ⟨1, "Hello, World!", "hello-world"⟩ hok
  have hfix : slugify "hello-world" = "hello-world" := by
    have := h.2.2.1
    simpa using this
  exact ⟨hok, h.1, hfix⟩

/-- C10: a PATCH of a user or a post changes only the fields present in
the payload: omitted fields of the targeted row keep their previous
value, rows with a different id and all other tables survive untouched,
and a PATCH of a missing id fails with 404 leaving the database exactly
as it was. -/
theorem patch_changes_only_provided_fields (db : DB) (uid : Nat)
    (upd : UserUpdate) (pid : Nat) (pupd : PostUpdate) :
    (db.users.find? (fun v => v.id == uid) = none →
      update_user db uid upd = (db, .error (.http 404 "User not found"))) ∧
    (∀ u, db.users.find? (fun v => v.id == uid) = some u →
      (update_user db uid upd).1.posts = db.posts ∧
      (update_user db uid upd).1.tags = db.tags ∧
      (update_user db uid upd).1.comments = db.comments ∧
      (update_user db uid upd).1.postTags = db.postTags ∧
      (∀ v ∈ db.users, v.id ≠ uid → v ∈ (update_user db uid upd).1.users) ∧
      ∃ u', (update_user db uid upd).2 = .ok u' ∧
        u'.id = u.id ∧ u'.createdAt = u.createdAt ∧
        (upd.username = none → u'.username = u.username) ∧
        (upd.email = none → u'.email = u.email) ∧
        (upd.username = none → upd.email = none → u' = u)) ∧
    (db.posts.find? (fun q => q.id == pid) = none →
      update_post db pid pupd = (db, .error (.http 404 "Post not found"))) ∧
    (∀ p, db.posts.find? (fun q => q.id == pid) = some p →
      (update_post db pid pupd).1.users = db.users ∧
      (update_post db pid pupd).1.tags = db.tags ∧
      (update_post db pid pupd).1.comments = db.comments ∧
      (update_post db pid pupd).1.postTags = db.postTags ∧
      (∀ q ∈ db.posts, q.id ≠ pid → q ∈ (update_post db pid pupd).1.posts) ∧
      ∃ p', (update_post db pid pupd).2 = .ok p' ∧
        p'.id = p.id ∧ p'.createdAt = p.createdAt ∧
        p'.updatedAt = p.updatedAt ∧ p'.authorId = p.authorId ∧
        (pupd.title = none → p'.title = p.title) ∧
        (pupd.content = none → p'.content = p.content) ∧
        (pupd.published = none → p'.published = p.published)) := by
  refine ⟨?_, ?_, ?_, ?_⟩
  · intro hnone
    unfold update_user
    rw [hnone]
  · intro u hu
    unfold update_user
    rw [hu]
    refine ⟨rfl, rfl, rfl, rfl, ?_, ?_⟩
    · intro v hv hne
      exact List.mem_map.mpr ⟨v, hv, by simp [hne]⟩
    · refine ⟨_, rfl, rfl, rfl, ?_, ?_, ?_⟩
      · intro h; rw [h]; rfl
      · intro h; rw [h]; rfl
      · intro h1 h2; rw [h1, h2]; rfl
  · intro hnone
    unfold update_post
    rw [hnone]
  · intro p hp
    unfold update_post
    rw [hp]
    refine ⟨rfl, rfl, rfl, rfl, ?_, ?_⟩
    · intro q hq hne
      exact List.mem_map.mpr ⟨q, hq, by simp [hne]⟩
    · refine ⟨_, rfl, rfl, rfl, rfl, rfl, ?_, ?_, ?_⟩
      · intro h; rw [h]; rfl
      · intro h; rw [h]; rfl
      · intro h; rw [h]; rfl

/-- A concrete database with one user and one post, for PATCH witnesses. -/
def dbPatch : DB :=
  { users := [⟨1, "alice", "a@x.io", 0⟩],
    tags := [],
    posts := [⟨1, "T", "C", false, 3, 3, some 1⟩],
    comments := [], postTags := [] }

/-- C10 witness: PATCHing a missing user id leaves the state untouched,
and a PATCH that only sets `published` keeps the post's title, content
and author exactly as they were. -/
theorem patch_changes_only_provided_fields_witness :
    update_user dbPatch 99 ⟨some "zed", none⟩ =
      (dbPatch, .error (.http 404 "User not found")) ∧
    ∃ p', (update_post dbPatch 1 ⟨none, none, some true⟩).2 = .ok p' ∧
      p'.title = "T" ∧ p'.content = "C" ∧ p'.authorId = some 1 := by
  have h := patch_changes_only_provided_fields dbPatch 99 ⟨some "zed", none⟩ 1
    ⟨none, none, some true⟩
  have h404 := h.1 (by simp [dbPatch])
  have hp := h.2.2.2 ⟨1, "T", "C", false, 3, 3, some 1⟩ (by simp [dbPatch])
  obtain ⟨p', hok, _, _, _, hauthor, htitle, hcontent, _⟩ := hp.2.2.2.2.2
  exact ⟨h404, p', hok, htitle rfl, hcontent rfl, hauthor⟩

end Blog
